import Mathlib

set_option autoImplicit false
set_option maxHeartbeats 1000000

/-!
Verification development for the stream reconciliation engine of the
DealForge frontend: a shallow embedding of `store/negotiationStore.tsx`
and `features/negotiation-room/hooks/useNegotiationStream.ts`.

JavaScript objects keyed by strings (`Record<string, T>`) are modelled as
insertion-ordered association lists with first-match lookup; the spread
update `{...obj, [k]: v}` keeps an existing key at its position and
appends a fresh key at the end, which `upsertAssoc` mirrors.
-/

namespace NegotiationCore

/-- First-match lookup in an insertion-ordered keyed map (JS `obj[k]`). -/
def lookupAssoc {κ α : Type} [DecidableEq κ] : List (κ × α) → κ → Option α
  | [], _ => none
  | (k, v) :: rest, key => if k = key then some v else lookupAssoc rest key

/-- JS `{...obj, [k]: v}`: replace the (unique) existing binding in place,
or append a new binding at the end. -/
def upsertAssoc {κ α : Type} [DecidableEq κ] : List (κ × α) → κ → α → List (κ × α)
  | [], key, v => [(key, v)]
  | (k, w) :: rest, key, v =>
      if k = key then (key, v) :: rest else (k, w) :: upsertAssoc rest key v

/-- `Offer` from `lib/types` as used by the store and the stream hook:
price, quantity and the wire timestamp. JS numbers are modelled as `Int`. -/
structure Offer where
  price : Int
  quantity : Int
  timestamp : String
deriving DecidableEq, Repr

/-- `Offer & { seller_name: string }`, the value type of the store's
`offers` record. -/
structure NamedOffer extends Offer where
  seller_name : String
deriving DecidableEq, Repr

/-- `Message` from `lib/types`, fields as constructed in
`useNegotiationStream.ts`. The client-generated random `message_id`
(`msg_${Date.now()}_${Math.random()}`) is nondeterministic and no claim
depends on it, so it is not modelled. -/
structure Message where
  turn : Option Int
  timestamp : String
  sender_type : String
  sender_id : Option String
  sender_name : Option String
  message : String
  mentioned_agents : List String
  updated_offer : Option Offer := none
deriving DecidableEq, Repr

/-- `RoundSellerResponse` from `negotiationStore.tsx`. -/
structure RoundSellerResponse where
  sellerId : String
  sellerName : String
  responseMs : Int
  price : Option Int := none
deriving DecidableEq, Repr

/-- `RoundBestOffer` from `negotiationStore.tsx`. -/
structure RoundBestOffer where
  sellerId : String
  sellerName : String
  price : Int
deriving DecidableEq, Repr

/-- `RoundTimelineEntry` from `negotiationStore.tsx`. -/
structure RoundTimelineEntry where
  round : Int
  startedAt : Option String := none
  sellerResponses : List RoundSellerResponse
  bestOffer : Option RoundBestOffer := none
  cardSavings : Option Int := none
deriving DecidableEq, Repr

/-- `BuyerDecision` from `lib/types`, fields as set by the `decision`
event handler. -/
structure BuyerDecision where
  selected_seller_id : Option String
  seller_name : Option String
  final_price : Option Int
  quantity : Int
  decision_reason : String
  total_cost : Option Int
  timestamp : String
  effective_total : Option Int := none
  recommended_card : Option String := none
  card_savings : Option Int := none
deriving DecidableEq, Repr

/-- `NegotiationRoomState` from `negotiationStore.tsx`. The
`stream: EventSource | null` field is modelled as an opaque handle id. -/
structure NegotiationRoomState where
  messages : List Message
  offers : List (String × NamedOffer)
  currentRound : Int
  maxRounds : Int
  decision : Option BuyerDecision
  isStreaming : Bool
  stream : Option Nat
  roundTimeline : List RoundTimelineEntry
deriving DecidableEq, Repr

/-- `initialRoomState` from `negotiationStore.tsx`. -/
def initialRoomState : NegotiationRoomState :=
  { messages := []
    offers := []
    currentRound := 0
    maxRounds := 10
    decision := none
    isStreaming := false
    stream := none
    roundTimeline := [] }

/-- `NegotiationState` from `negotiationStore.tsx`. -/
structure NegotiationState where
  activeRoomId : Option String
  rooms : List (String × NegotiationRoomState)
deriving DecidableEq, Repr

/-- Stable insertion of a timeline entry before the first entry of
greater-or-equal round (one step of the stable ascending sort used by
`upsertRoundEntry`). -/
def insertByRound (e : RoundTimelineEntry) :
    List RoundTimelineEntry → List RoundTimelineEntry
  | [] => [e]
  | x :: xs => if e.round ≤ x.round then e :: x :: xs else x :: insertByRound e xs

/-- The JS `Array.prototype.sort((a, b) => a.round - b.round)` call of
`upsertRoundEntry`, modelled as a stable insertion sort by round. -/
def sortByRound : List RoundTimelineEntry → List RoundTimelineEntry
  | [] => []
  | x :: xs => insertByRound x (sortByRound xs)

/-- The lazily created entry `{ round, sellerResponses: [] }` of
`upsertRoundEntry`. -/
def newRoundEntry (round : Int) : RoundTimelineEntry :=
  { round := round, startedAt := none, sellerResponses := [],
    bestOffer := none, cardSavings := none }

/-- `upsertRoundEntry` from `negotiationStore.tsx`: update the existing
round entry in place, or append a freshly created entry and re-sort by
round. -/
def upsertRoundEntry (entries : List RoundTimelineEntry) (round : Int)
    (updater : RoundTimelineEntry → RoundTimelineEntry) : List RoundTimelineEntry :=
  if entries.any (fun item => item.round == round) then
    entries.map (fun item => if item.round = round then updater item else item)
  else
    sortByRound (entries ++ [updater (newRoundEntry round)])

/-- Shared shape of every store mutation of `negotiationStore.tsx`:
look the room up, return the state unchanged when absent (`if (!room)
return prev`), otherwise write the updated room back. -/
def withRoom (roomId : String) (f : NegotiationRoomState → NegotiationRoomState)
    (prev : NegotiationState) : NegotiationState :=
  match lookupAssoc prev.rooms roomId with
  | none => prev
  | some room => { prev with rooms := upsertAssoc prev.rooms roomId (f room) }

/-- `initializeRoom` from `negotiationStore.tsx`:
`[roomId]: prev.rooms[roomId] || { ...initialRoomState, maxRounds }`. -/
def initializeRoom (roomId : String) (maxRounds : Int) (prev : NegotiationState) :
    NegotiationState :=
  { prev with
    rooms := upsertAssoc prev.rooms roomId
      (match lookupAssoc prev.rooms roomId with
       | some existing => existing
       | none => { initialRoomState with maxRounds := maxRounds }) }

/-- `addMessage` from `negotiationStore.tsx`. -/
def addMessage (roomId : String) (message : Message) : NegotiationState → NegotiationState :=
  withRoom roomId (fun room => { room with messages := room.messages ++ [message] })

/-- `updateOffer` from `negotiationStore.tsx`:
`offers: { ...room.offers, [sellerId]: { ...offer, seller_name: sellerName } }`. -/
def updateOffer (roomId sellerId sellerName : String) (offer : Offer) :
    NegotiationState → NegotiationState :=
  withRoom roomId (fun room =>
    { room with offers := (upsertAssoc room.offers sellerId
        { toOffer := offer, seller_name := sellerName }) })

/-- `updateRound` from `negotiationStore.tsx`. -/
def updateRound (roomId : String) (round : Int) : NegotiationState → NegotiationState :=
  withRoom roomId (fun room => { room with currentRound := round })

/-- `setDecision` from `negotiationStore.tsx`. -/
def setDecision (roomId : String) (decision : BuyerDecision) :
    NegotiationState → NegotiationState :=
  withRoom roomId (fun room => { room with decision := some decision })

/-- `setStreaming` from `negotiationStore.tsx`. -/
def setStreaming (roomId : String) (isStreaming : Bool) :
    NegotiationState → NegotiationState :=
  withRoom roomId (fun room => { room with isStreaming := isStreaming })

/-- `connectStream` from `negotiationStore.tsx`. -/
def connectStream (roomId : String) (stream : Nat) :
    NegotiationState → NegotiationState :=
  withRoom roomId (fun room => { room with stream := some stream, isStreaming := true })

/-- `disconnectStream` from `negotiationStore.tsx` (closing the browser
EventSource handle is an external side effect; the state update drops the
handle and stops streaming). -/
def disconnectStream (roomId : String) : NegotiationState → NegotiationState :=
  withRoom roomId (fun room => { room with stream := none, isStreaming := false })

/-- `clearRoom` from `negotiationStore.tsx`. -/
def clearRoom (roomId : String) (prev : NegotiationState) : NegotiationState :=
  { prev with
    rooms := prev.rooms.filter (fun p => !(p.1 == roomId))
    activeRoomId := if prev.activeRoomId = some roomId then none else prev.activeRoomId }

/-- `recordRoundStart` from `negotiationStore.tsx`. -/
def recordRoundStart (roomId : String) (round : Int) (startedAt : String) :
    NegotiationState → NegotiationState :=
  withRoom roomId (fun room =>
    { room with roundTimeline := (upsertRoundEntry room.roundTimeline round
        (fun entry => { entry with startedAt := some startedAt })) })

/-- `recordSellerResponse` from `negotiationStore.tsx`. -/
def recordSellerResponse (roomId : String) (round : Int)
    (response : RoundSellerResponse) : NegotiationState → NegotiationState :=
  withRoom roomId (fun room =>
    { room with roundTimeline := (upsertRoundEntry room.roundTimeline round
        (fun entry => { entry with sellerResponses := entry.sellerResponses ++ [response] })) })

/-- `setRoundBestOffer` from `negotiationStore.tsx`. -/
def setRoundBestOffer (roomId : String) (round : Int) (bestOffer : RoundBestOffer) :
    NegotiationState → NegotiationState :=
  withRoom roomId (fun room =>
    { room with roundTimeline := (upsertRoundEntry room.roundTimeline round
        (fun entry => { entry with bestOffer := some bestOffer })) })

/-- `setRoundCardSavings` from `negotiationStore.tsx`. -/
def setRoundCardSavings (roomId : String) (round : Int) (cardSavings : Int) :
    NegotiationState → NegotiationState :=
  withRoom roomId (fun room =>
    { room with roundTimeline := (upsertRoundEntry room.roundTimeline round
        (fun entry => { entry with cardSavings := some cardSavings })) })

/-- JS `a || b` where `a` is a possibly-absent string: the empty string is
falsy, anything else is returned as-is. -/
def jsOrString (a : Option String) (b : String) : String :=
  match a with
  | some s => if s = "" then b else s
  | none => b

/-- JS `a || b` where both operands are possibly-absent numbers: `0` is
falsy. -/
def jsOrOptInt (a b : Option Int) : Option Int :=
  match a with
  | some n => if n = 0 then b else some n
  | none => b

/-- JS `a || b` with a number fallback: `undefined` and `0` fall through
to `b`. -/
def jsOrIntVal (a : Option Int) (b : Int) : Int :=
  match a with
  | some n => if n = 0 then b else n
  | none => b

/-- JS truthiness of a possibly-absent number (`if (event.round)`). -/
def jsTruthyInt : Option Int → Bool
  | some n => n != 0
  | none => false

/-- JS string coercion of a possibly-absent string (interpolation and
computed object keys turn `undefined` into `"undefined"`). -/
def jsString (o : Option String) : String :=
  o.getD "undefined"

/-- JS template interpolation of a possibly-absent number. -/
def jsStringOfInt : Option Int → String
  | some n => toString n
  | none => "undefined"

/-- Character-level scanner for `stripThinking`: outside a thinking block
(`false`) characters are kept and an opening delimiter switches to inside;
inside (`true`) characters are dropped until the closing delimiter. -/
def stripThinkingChars : Bool → List Char → List Char
  | false, '<' :: 't' :: 'h' :: 'i' :: 'n' :: 'k' :: '>' :: rest =>
      stripThinkingChars true rest
  | true, '<' :: '/' :: 't' :: 'h' :: 'i' :: 'n' :: 'k' :: '>' :: rest =>
      stripThinkingChars false rest
  | false, c :: rest => c :: stripThinkingChars false rest
  | true, _ :: rest => stripThinkingChars true rest
  | _, [] => []

/-- Modelled from the spec: `stripThinking` lives in `utils/formatters.ts`,
which is not under src; per spec §4.1 it removes internal "thinking"
delimiters (`<think>` ... `</think>`) and their contents from a message
body. -/
def stripThinking (s : String) : String :=
  ⟨stripThinkingChars false s.data⟩

/-- JS `String.prototype.trim`, modelled over the character list (the
built-in `String.trim` is not kernel-reducible). -/
def jsTrim (s : String) : String :=
  ⟨((s.data.dropWhile Char.isWhitespace).reverse.dropWhile Char.isWhitespace).reverse⟩

/-- One row of the list fed to `findBestOffer`:
`Object.entries(offersWithNew).map(([sellerId, offer]) => ({ sellerId, ...offer }))`. -/
structure OfferEntry where
  sellerId : String
  price : Int
  quantity : Int
  timestamp : String
  seller_name : String
deriving DecidableEq, Repr

/-- One comparison step of the best-offer scan: keep the incumbent unless
the candidate is strictly cheaper (so the earliest seller wins ties). -/
def bestOfferStep (best : Option OfferEntry) (o : OfferEntry) : Option OfferEntry :=
  match best with
  | none => some o
  | some b => if o.price < b.price then some o else some b

/-- Modelled from the spec: `findBestOffer` lives in `utils/helpers.ts`,
which is not under src; per spec §4.4 the best offer is the entry with the
lowest price, ties broken by the earliest-inserted seller (first to reach
that price wins). -/
def findBestOffer (offers : List OfferEntry) : Option OfferEntry :=
  offers.foldl bestOfferStep none

/-- The insertion-ordered entry list of an offer map. -/
def offerEntries (offers : List (String × NamedOffer)) : List OfferEntry :=
  offers.map (fun p =>
    { sellerId := p.1, price := p.2.price, quantity := p.2.quantity,
      timestamp := p.2.timestamp, seller_name := p.2.seller_name })

/-- The `offer: { price, quantity }` payload of a `seller_response` event. -/
structure OfferPayload where
  price : Int
  quantity : Int
deriving DecidableEq, Repr

/-- The loosely-typed wire event record (`NegotiationEvent`), with every
type-specific field optional, as consumed by `handleEvent` in
`useNegotiationStream.ts`. -/
structure RawEvent where
  type : String
  room_id : Option String := none
  content : Option String := none
  message : Option String := none
  sender_type : Option String := none
  sender_id : Option String := none
  sender_name : Option String := none
  seller_id : Option String := none
  seller_name : Option String := none
  turn_number : Option Int := none
  round : Option Int := none
  round_number : Option Int := none
  max_rounds : Option Int := none
  timestamp : String := ""
  mentioned_sellers : Option (List String) := none
  offer : Option OfferPayload := none
  price_per_unit : Option Int := none
  quantity : Option Int := none
  chosen_seller_id : Option String := none
  chosen_seller_name : Option String := none
  final_price : Option Int := none
  final_quantity : Option Int := none
  total_cost : Option Int := none
  reason : Option String := none
  effective_total : Option Int := none
  recommended_card : Option String := none
  card_savings : Option Int := none
deriving DecidableEq, Repr

/-- A `pushToast` notification record. -/
structure Toast where
  title : String
  description : String
  variant : String
deriving DecidableEq, Repr

/-- Connection parameters of the stream hook. `SSE_RECONNECT_DELAY_BASE`
and `MAX_RECONNECT_ATTEMPTS` live in `lib/constants.ts`, which is not
under src, and the spec fixes neither value ("bounded, e.g. 5"), so both
are parameters; `new Date(...).getTime()` is environment-dependent, so
timestamp parsing is an injected function (cf. spec §9, injectable
scheduler/virtual clock). -/
structure StreamConfig where
  baseDelay : Nat
  maxAttempts : Nat
  parseTime : String → Int

/-- The mutable context of one `useNegotiationStream` instance: the store
plus the hook's refs, with the externally observable side channels
(toasts, surfaced errors, completion callbacks, stream opens) recorded as
logs. `cleanup` mirrors whether `cleanupRef.current` holds a live
connection; `reconnectTimeout` mirrors the pending timer tracked by
`reconnectTimeoutRef` together with its scheduled delay; `sessionRooms`
mirrors the read-only participating-seller counts from the session store. -/
structure HookState where
  store : NegotiationState
  reconnectAttempts : Nat
  reconnectTimeout : Option Nat
  roundStart : List (Int × String)
  roundResponseCount : List (Int × Nat)
  bestOffer : Option (String × Int)
  cleanup : Bool
  streamsOpened : Nat
  toasts : List Toast
  errorsSurfaced : List (Option String)
  completionsFired : Nat
  sessionRooms : List (String × Nat)
deriving DecidableEq, Repr

/-- Append a toast notification to the side-channel log. -/
def pushToast (h : HookState) (t : Toast) : HookState :=
  { h with toasts := h.toasts ++ [t] }

/-- The fixed filler sentence substituted for an empty buyer message. -/
def buyerFallbackMessage : String :=
  "I\x27m reviewing your offers and considering the best counter-offer."

/-- `case 'connected'` of `handleEvent`. -/
def handleConnected (roomId : String) (h : HookState) : HookState :=
  { h with reconnectAttempts := 0, store := setStreaming roomId true h.store }

/-- `case 'message'` / `case 'buyer_message'` of `handleEvent`. -/
def handleMessage (roomId : String) (ev : RawEvent) (h : HookState) : HookState :=
  let rawMessage := jsOrString ev.content (jsOrString ev.message "")
  let displayMessage := stripThinking rawMessage
  let isBuyerMessage : Bool :=
    ev.type == "buyer_message" || jsOrString ev.sender_type "buyer" == "buyer"
  let displayMessage :=
    if (displayMessage == "" || jsTrim displayMessage == "") && isBuyerMessage then
      buyerFallbackMessage
    else displayMessage
  if displayMessage == "" || jsTrim displayMessage == "" then h
  else
    let message : Message :=
      { turn := jsOrOptInt ev.turn_number ev.round
        timestamp := ev.timestamp
        sender_type := jsOrString ev.sender_type "buyer"
        sender_id := ev.sender_id
        sender_name := ev.sender_name
        message := displayMessage
        mentioned_agents := ev.mentioned_sellers.getD [] }
    { h with store := addMessage roomId message h.store }

/-- The `BuyerDecision` constructed by `case 'decision'` of `handleEvent`. -/
def decisionOf (ev : RawEvent) : BuyerDecision :=
  { selected_seller_id := ev.chosen_seller_id
    seller_name := ev.chosen_seller_name
    final_price := ev.final_price
    quantity := jsOrIntVal ev.final_quantity 0
    decision_reason := jsOrString ev.reason ""
    total_cost := ev.total_cost
    timestamp := ev.timestamp
    effective_total := ev.effective_total
    recommended_card := ev.recommended_card
    card_savings := ev.card_savings }

/-- The synthesized system `Message` of `case 'decision'` of `handleEvent`. -/
def decisionMessageOf (ev : RawEvent) : Message :=
  { turn := some (jsOrIntVal ev.round 999)
    timestamp := ev.timestamp
    sender_type := "system"
    sender_id := none
    sender_name := some "System"
    message := "Deal complete. Selected " ++ jsString ev.chosen_seller_name ++ " at $"
      ++ jsStringOfInt ev.final_price ++ "/unit for " ++ jsStringOfInt ev.final_quantity
      ++ " units. Total: $" ++ jsStringOfInt ev.total_cost ++ ". Reason: "
      ++ jsOrString ev.reason "Best offer"
    mentioned_agents := [] }

/-- `case 'decision'` of `handleEvent`. The sync of the final deal into
the session store is an update of the external session registry (spec §1
scopes it out as a collaborator) and is not part of the room state
modelled here. -/
def handleDecision (roomId : String) (ev : RawEvent) (h : HookState) : HookState :=
  let h := { h with store := setDecision roomId (decisionOf ev) h.store }
  let h := { h with store := addMessage roomId (decisionMessageOf ev) h.store }
  let decisionRound :=
    jsOrIntVal ((lookupAssoc h.store.rooms roomId).map (fun r => r.currentRound)) 0
  let h :=
    match ev.card_savings with
    | some cs => { h with store := setRoundCardSavings roomId decisionRound cs h.store }
    | none => h
  pushToast h
    { title := "Decision reached"
      description :=
        match ev.chosen_seller_name with
        | some n => if n = "" then "Negotiation completed" else "Selected " ++ n
        | none => "Negotiation completed"
      variant := "success" }

/-- `case 'offer'` of `handleEvent`. -/
def handleOffer (roomId : String) (ev : RawEvent) (h : HookState) : HookState :=
  let offer : Offer :=
    { price := ev.price_per_unit.getD 0
      quantity := ev.quantity.getD 0
      timestamp := ev.timestamp }
  { h with store := updateOffer roomId (jsString ev.seller_id) (jsString ev.seller_name) offer h.store }

/-- `case 'round_start'` of `handleEvent` (the session-store round sync is
external, as for `handleDecision`). -/
def handleRoundStart (roomId : String) (ev : RawEvent) (h : HookState) : HookState :=
  let roundNumber := ev.round_number.getD 0
  let h := { h with store := updateRound roomId roundNumber h.store }
  let h := { h with
    roundStart := upsertAssoc h.roundStart roundNumber ev.timestamp
    roundResponseCount := upsertAssoc h.roundResponseCount roundNumber 0 }
  let h := { h with store := recordRoundStart roomId roundNumber ev.timestamp h.store }
  pushToast h
    { title := "Round " ++ toString roundNumber ++ " started"
      description := "Negotiating " ++ jsStringOfInt ev.max_rounds ++ " rounds"
      variant := "info" }

/-- The offer payload extracted by `case 'seller_response'`:
`event.offer ? { price, quantity, timestamp } : undefined`. -/
def sellerOfferDataOf (ev : RawEvent) : Option Offer :=
  ev.offer.map (fun o => { price := o.price, quantity := o.quantity, timestamp := ev.timestamp })

/-- The seller `Message` constructed by `case 'seller_response'`, with the
synthesized "Offering $.../unit for ... units" fallback body when the
stripped content is empty but an offer is attached. -/
def sellerMessageOf (ev : RawEvent) : Message :=
  let displaySellerMessage := stripThinking (jsOrString ev.content (jsOrString ev.message ""))
  let sellerOfferData := sellerOfferDataOf ev
  { turn := jsOrOptInt ev.turn_number ev.round
    timestamp := ev.timestamp
    sender_type := "seller"
    sender_id := ev.seller_id
    sender_name := ev.sender_name
    message :=
      if displaySellerMessage = "" then
        match sellerOfferData with
        | some o => "Offering $" ++ toString o.price ++ "/unit for " ++ toString o.quantity ++ " units"
        | none => ""
      else displaySellerMessage
    mentioned_agents := []
    updated_offer := sellerOfferData }

/-- The `if (event.round)` tail of `case 'seller_response'`: record the
response latency on the round timeline and toast when every participating
seller has answered. -/
def sellerRoundStage (cfg : StreamConfig) (roomId : String) (ev : RawEvent)
    (h : HookState) : HookState :=
  if jsTruthyInt ev.round then
    let round := ev.round.getD 0
    let responseMs : Int :=
      match lookupAssoc h.roundStart round with
      | some startAt => max 0 (cfg.parseTime ev.timestamp - cfg.parseTime startAt)
      | none => 0
    let h := { h with store := (recordSellerResponse roomId round
      { sellerId := jsString ev.seller_id
        sellerName := jsString ev.sender_name
        responseMs := responseMs
        price := (sellerOfferDataOf ev).map (fun o : Offer => o.price) } h.store) }
    let totalSellers := (lookupAssoc h.sessionRooms roomId).getD 0
    let newCount := (lookupAssoc h.roundResponseCount round).getD 0 + 1
    let h := { h with roundResponseCount := upsertAssoc h.roundResponseCount round newCount }
    if totalSellers > 0 && newCount ≥ totalSellers then
      pushToast h
        { title := "Round " ++ toString round ++ " complete"
          description := "All " ++ toString totalSellers ++ " sellers responded"
          variant := "success" }
    else h
  else h

/-- The change guard of the best-offer recompute: fire only when the
resolved `(seller_id, price)` pair differs from the previously resolved
one tracked in `bestOfferRef`. -/
def bestOfferChanged (prev : Option (String × Int)) (b : OfferEntry) : Bool :=
  match prev with
  | none => true
  | some p => p.1 != b.sellerId || p.2 != b.price

/-- `case 'seller_response'` of `handleEvent`. -/
def handleSellerResponse (cfg : StreamConfig) (roomId : String) (ev : RawEvent)
    (h : HookState) : HookState :=
  let h := { h with store := addMessage roomId (sellerMessageOf ev) h.store }
  let h :=
    match sellerOfferDataOf ev with
    | none => h
    | some offerData =>
      let h := { h with store := (updateOffer roomId (jsString ev.seller_id)
        (jsString ev.sender_name) offerData h.store) }
      let offersSnapshot := ((lookupAssoc h.store.rooms roomId).map (fun r => r.offers)).getD []
      let offersWithNew := upsertAssoc offersSnapshot (jsString ev.seller_id)
        { toOffer := offerData, seller_name := jsString ev.sender_name }
      match findBestOffer (offerEntries offersWithNew) with
      | none => h
      | some b =>
        let changed : Bool := bestOfferChanged h.bestOffer b
        if changed then
          let h := { h with bestOffer := some (b.sellerId, b.price) }
          let targetRound := jsOrIntVal ev.round
            (jsOrIntVal ((lookupAssoc h.store.rooms roomId).map (fun r => r.currentRound)) 0)
          let h := { h with store := (setRoundBestOffer roomId targetRound
            { sellerId := b.sellerId, sellerName := b.seller_name, price := b.price } h.store) }
          pushToast h
            { title := "Best offer updated"
              description := b.seller_name ++ " at $" ++ toString b.price ++ "/unit"
              variant := "info" }
        else h
  sellerRoundStage cfg roomId ev h

/-- `case 'negotiation_complete'` of `handleEvent`: stop streaming, close
the live connection held in `cleanupRef` (and only that — the pending
reconnect timer is left untouched by this case), fire the completion
callback, and toast. The session-store completion sync is external, as
for `handleDecision`. -/
def handleComplete (roomId : String) (h : HookState) : HookState :=
  let h := { h with store := setStreaming roomId false h.store }
  let h := if h.cleanup then { h with cleanup := false } else h
  let h := { h with completionsFired := h.completionsFired + 1 }
  pushToast h
    { title := "Negotiation complete"
      description := "Final decision is ready"
      variant := "success" }

/-- `case 'error'` of `handleEvent`: surface the error, then either
schedule a reconnect timer with delay
`min(SSE_RECONNECT_DELAY_BASE * 2 ** attempts, 30000)` or, when the
attempt budget is exhausted, stop streaming. -/
def handleError (cfg : StreamConfig) (roomId : String) (ev : RawEvent)
    (h : HookState) : HookState :=
  let h := { h with errorsSurfaced := h.errorsSurfaced ++ [ev.message] }
  if h.reconnectAttempts < cfg.maxAttempts then
    { h with reconnectTimeout := some (min (cfg.baseDelay * 2 ^ h.reconnectAttempts) 30000) }
  else
    { h with store := setStreaming roomId false h.store }

/-- `handleEvent` from `useNegotiationStream.ts`: the switch over
`event.type`. `heartbeat` and unknown types leave the state unchanged. -/
def handleEvent (cfg : StreamConfig) (roomId : String) (ev : RawEvent)
    (h : HookState) : HookState :=
  if ev.type = "connected" then handleConnected roomId h
  else if ev.type = "message" ∨ ev.type = "buyer_message" then handleMessage roomId ev h
  else if ev.type = "seller_response" then handleSellerResponse cfg roomId ev h
  else if ev.type = "offer" then handleOffer roomId ev h
  else if ev.type = "decision" then handleDecision roomId ev h
  else if ev.type = "round_start" then handleRoundStart roomId ev h
  else if ev.type = "negotiation_complete" then handleComplete roomId h
  else if ev.type = "error" then handleError cfg roomId ev h
  else h

/-- The callback of the `setTimeout` scheduled by the error case: when the
tracked timer is pending and fires, the attempt counter is incremented and
`openNegotiationStream` opens a fresh stream into `cleanupRef`. -/
def fireReconnectTimer (h : HookState) : HookState :=
  match h.reconnectTimeout with
  | none => h
  | some _ =>
      { h with reconnectTimeout := none
               reconnectAttempts := h.reconnectAttempts + 1
               cleanup := true
               streamsOpened := h.streamsOpened + 1 }

/-- `disconnect` from `useNegotiationStream.ts`: clear the pending
reconnect timer, close the live connection, and mark the room stopped. -/
def disconnect (roomId : String) (h : HookState) : HookState :=
  let h := { h with reconnectTimeout := none }
  let h := if h.cleanup then { h with cleanup := false } else h
  let h := { h with store := disconnectStream roomId h.store }
  { h with store := setStreaming roomId false h.store }

/-- Read accessor: the state of one room (`rooms[roomId]`). -/
def roomOf (s : NegotiationState) (roomId : String) : Option NegotiationRoomState :=
  lookupAssoc s.rooms roomId

/-- Read accessor: a room's message timeline. -/
def roomMessages (s : NegotiationState) (roomId : String) : Option (List Message) :=
  (roomOf s roomId).map (fun r => r.messages)

/-- Read accessor: a room's offer map. -/
def roomOffers (s : NegotiationState) (roomId : String) :
    Option (List (String × NamedOffer)) :=
  (roomOf s roomId).map (fun r => r.offers)

/-- Read accessor: a room's decision. -/
def roomDecision (s : NegotiationState) (roomId : String) : Option (Option BuyerDecision) :=
  (roomOf s roomId).map (fun r => r.decision)

/-- Read accessor: a room's streaming flag (`streaming` vs `stopped`
connection status). -/
def roomIsStreaming (s : NegotiationState) (roomId : String) : Option Bool :=
  (roomOf s roomId).map (fun r => r.isStreaming)

/-- Read accessor: the first timeline entry of a given round. -/
def roundEntryOf (s : NegotiationState) (roomId : String) (round : Int) :
    Option RoundTimelineEntry :=
  (roomOf s roomId).bind (fun r => r.roundTimeline.find? (fun e => e.round == round))

/-- How many best-offer change notifications have been emitted. -/
def bestOfferToastCount (h : HookState) : Nat :=
  h.toasts.countP (fun t => t.title == "Best offer updated")

/-- The named offer a `seller_response` event upserts for its seller. -/
def eventNamedOffer (ev : RawEvent) (op : OfferPayload) : NamedOffer :=
  { toOffer := { price := op.price, quantity := op.quantity, timestamp := ev.timestamp }
    seller_name := jsString ev.sender_name }

/-- The best offer resolved while handling a `seller_response` event
carrying payload `op`, over the room's offers with the event's offer
upserted. -/
def resolvedBestAfter (ev : RawEvent) (op : OfferPayload) (roomId : String)
    (h : HookState) : Option OfferEntry :=
  findBestOffer (offerEntries (upsertAssoc ((roomOffers h.store roomId).getD [])
    (jsString ev.seller_id) (eventNamedOffer ev op)))

/-- An empty store with no rooms. -/
def emptyState : NegotiationState := { activeRoomId := none, rooms := [] }

/-- A store holding the single fresh room `"room1"`. -/
def sampleState : NegotiationState :=
  { activeRoomId := none, rooms := [("room1", initialRoomState)] }

/-- A concrete connection configuration for witnesses: base delay 1000 ms,
five attempts, timestamps parsed by length. -/
def sampleConfig : StreamConfig :=
  { baseDelay := 1000, maxAttempts := 5, parseTime := fun s => (s.length : Int) }

/-- A fresh hook context over `sampleState` with a live connection. -/
def sampleHook : HookState :=
  { store := sampleState
    reconnectAttempts := 0
    reconnectTimeout := none
    roundStart := []
    roundResponseCount := []
    bestOffer := none
    cleanup := true
    streamsOpened := 0
    toasts := []
    errorsSurfaced := []
    completionsFired := 0
    sessionRooms := [] }

/-- A concrete message used in witnesses. -/
def sampleMessage : Message :=
  { turn := some 1, timestamp := "t0", sender_type := "buyer", sender_id := some "b1",
    sender_name := some "Buyer", message := "hello", mentioned_agents := [] }

/-- A concrete offer used in witnesses. -/
def sampleOffer : Offer := { price := 90, quantity := 2, timestamp := "t0" }

/-- Offer entry A at price 100 (spec §8 best-offer determinism example). -/
def offerEntryA : OfferEntry :=
  { sellerId := "A", price := 100, quantity := 1, timestamp := "tA", seller_name := "A" }

/-- Offer entry B at price 90, inserted second. -/
def offerEntryB : OfferEntry :=
  { sellerId := "B", price := 90, quantity := 1, timestamp := "tB", seller_name := "B" }

/-- Offer entry C at price 90, inserted third. -/
def offerEntryC : OfferEntry :=
  { sellerId := "C", price := 90, quantity := 1, timestamp := "tC", seller_name := "C" }

/-- A transport error event. -/
def errorEvent : RawEvent := { type := "error", message := some "stream failed", timestamp := "t4" }

/-- A terminal completion event. -/
def completeEvent : RawEvent := { type := "negotiation_complete", timestamp := "t5" }

/-- A buyer message whose content is empty after stripping. -/
def buyerEmptyEvent : RawEvent := { type := "buyer_message", content := some "", timestamp := "t1" }

/-- A seller response with empty content and no offer payload. -/
def sellerEmptyEvent : RawEvent :=
  { type := "seller_response", content := some "", seller_id := some "s1",
    sender_name := some "S1", timestamp := "t2" }

/-- A seller response carrying an offer of 90/unit for 2 units. -/
def sellerOfferEvent : RawEvent :=
  { type := "seller_response", content := some "deal", seller_id := some "s1",
    sender_name := some "S1", timestamp := "t3",
    offer := some { price := 90, quantity := 2 }, round := some 1 }

/-- A decision event that names no seller (explicit no-deal). -/
def decisionNoSellerEvent : RawEvent :=
  { type := "decision", timestamp := "t6", reason := some "no deal" }

/-- A decision event selecting seller s1 with card savings. -/
def decisionEvent : RawEvent :=
  { type := "decision", timestamp := "t7", chosen_seller_id := some "s1",
    chosen_seller_name := some "S1", final_price := some 90, final_quantity := some 2,
    total_cost := some 180, reason := some "best offer", card_savings := some 5 }

/-- A store whose room `"room1"` already has a decision set. -/
def decidedState : NegotiationState :=
  { activeRoomId := none,
    rooms := [("room1", { initialRoomState with decision := some (decisionOf decisionEvent) })] }

/-- A hook context over `decidedState`. -/
def decidedHook : HookState := { sampleHook with store := decidedState }

theorem lookupAssoc_upsertAssoc_self {κ α : Type} [DecidableEq κ]
    (m : List (κ × α)) (k : κ) (v : α) :
    lookupAssoc (upsertAssoc m k v) k = some v := by
  induction m with
  | nil => simp [upsertAssoc, lookupAssoc]
  | cons p rest ih =>
    obtain ⟨k1, w⟩ := p
    by_cases hk : k1 = k
    · simp [upsertAssoc, lookupAssoc, hk]
    · simp [upsertAssoc, lookupAssoc, hk, ih]

theorem lookupAssoc_upsertAssoc_ne {κ α : Type} [DecidableEq κ]
    (m : List (κ × α)) (k key : κ) (v : α) (hne : key ≠ k) :
    lookupAssoc (upsertAssoc m k v) key = lookupAssoc m key := by
  have hkk : ¬ k = key := fun hEq => hne hEq.symm
  induction m with
  | nil => simp [upsertAssoc, lookupAssoc, hkk]
  | cons p rest ih =>
    obtain ⟨k1, w⟩ := p
    by_cases hk : k1 = k
    · subst hk
      simp [upsertAssoc, lookupAssoc, hkk]
    · simp [upsertAssoc, lookupAssoc, hk, ih]

theorem upsertAssoc_upsertAssoc_self {κ α : Type} [DecidableEq κ]
    (m : List (κ × α)) (k : κ) (v w : α) :
    upsertAssoc (upsertAssoc m k v) k w = upsertAssoc m k w := by
  induction m with
  | nil => simp [upsertAssoc]
  | cons p rest ih =>
    obtain ⟨k1, u⟩ := p
    by_cases hk : k1 = k
    · simp [upsertAssoc, hk]
    · simp [upsertAssoc, hk, ih]

theorem upsertAssoc_of_lookup_eq {κ α : Type} [DecidableEq κ]
    (m : List (κ × α)) (k : κ) (v : α) (h : lookupAssoc m k = some v) :
    upsertAssoc m k v = m := by
  induction m with
  | nil => simp [lookupAssoc] at h
  | cons p rest ih =>
    obtain ⟨k1, w⟩ := p
    by_cases hk : k1 = k
    · subst hk
      have hw : w = v := by simpa [lookupAssoc] using h
      subst hw
      simp [upsertAssoc]
    · simp only [lookupAssoc, if_neg hk] at h
      simp [upsertAssoc, hk, ih h]

theorem withRoom_of_lookup_none (roomId : String)
    (f : NegotiationRoomState → NegotiationRoomState) (s : NegotiationState)
    (h : lookupAssoc s.rooms roomId = none) : withRoom roomId f s = s := by
  simp [withRoom, h]

theorem roomOf_withRoom_self (roomId : String)
    (f : NegotiationRoomState → NegotiationRoomState) (s : NegotiationState) :
    roomOf (withRoom roomId f s) roomId = (roomOf s roomId).map f := by
  unfold roomOf withRoom
  cases h : lookupAssoc s.rooms roomId with
  | none => simp [h]
  | some room => simp [h, lookupAssoc_upsertAssoc_self]

theorem roomOf_withRoom_ne (roomId other : String)
    (f : NegotiationRoomState → NegotiationRoomState) (s : NegotiationState)
    (hne : other ≠ roomId) :
    roomOf (withRoom roomId f s) other = roomOf s other := by
  unfold roomOf withRoom
  cases h : lookupAssoc s.rooms roomId with
  | none => simp
  | some room => simp [lookupAssoc_upsertAssoc_ne _ _ _ _ hne]

theorem withRoom_withRoom (roomId : String)
    (f g : NegotiationRoomState → NegotiationRoomState) (s : NegotiationState) :
    withRoom roomId f (withRoom roomId g s) = withRoom roomId (fun r => f (g r)) s := by
  unfold withRoom
  cases h : lookupAssoc s.rooms roomId with
  | none => simp [h]
  | some room =>
    simp [h, lookupAssoc_upsertAssoc_self, upsertAssoc_upsertAssoc_self]

/-- C9: every store mutation invoked with a room id that has no
initialized state returns the whole store state unchanged (all operations
are total functions, so no exception can be thrown). -/
theorem store_ops_noop_on_missing_room (s : NegotiationState) (roomId : String)
    (hnone : lookupAssoc s.rooms roomId = none) :
    (∀ m, addMessage roomId m s = s) ∧
    (∀ sid name o, updateOffer roomId sid name o s = s) ∧
    (∀ r, updateRound roomId r s = s) ∧
    (∀ d, setDecision roomId d s = s) ∧
    (∀ b, setStreaming roomId b s = s) ∧
    (∀ r ts, recordRoundStart roomId r ts s = s) ∧
    (∀ r resp, recordSellerResponse roomId r resp s = s) ∧
    (∀ r bo, setRoundBestOffer roomId r bo s = s) ∧
    (∀ r cs, setRoundCardSavings roomId r cs s = s) := by
  refine ⟨fun m => ?_, fun sid name o => ?_, fun r => ?_, fun d => ?_, fun b => ?_,
    fun r ts => ?_, fun r resp => ?_, fun r bo => ?_, fun r cs => ?_⟩ <;>
    exact withRoom_of_lookup_none _ _ _ hnone

/-- Witness for C9 at the empty store and room id `"ghost"`. -/
theorem store_ops_noop_on_missing_room_witness :
    addMessage "ghost" sampleMessage emptyState = emptyState ∧
    updateOffer "ghost" "s1" "S1" sampleOffer emptyState = emptyState ∧
    setDecision "ghost" (decisionOf { type := "decision" }) emptyState = emptyState :=
  ⟨(store_ops_noop_on_missing_room emptyState "ghost" rfl).1 sampleMessage,
   (store_ops_noop_on_missing_room emptyState "ghost" rfl).2.1 "s1" "S1" sampleOffer,
   (store_ops_noop_on_missing_room emptyState "ghost" rfl).2.2.2.1
     (decisionOf { type := "decision" })⟩

/-- C10: calling `initializeRoom` for a room id already present leaves the
entire store state unchanged; the `maxRounds` argument of the repeated
call is ignored. -/
theorem initializeRoom_noop_on_existing_room (s : NegotiationState) (roomId : String)
    (maxRounds : Int) (r : NegotiationRoomState)
    (hr : lookupAssoc s.rooms roomId = some r) :
    initializeRoom roomId maxRounds s = s := by
  unfold initializeRoom
  rw [hr]
  rw [upsertAssoc_of_lookup_eq s.rooms roomId r hr]

/-- Witness for C10: re-initializing `"room1"` of `sampleState` with a
different `maxRounds` changes nothing. -/
theorem initializeRoom_noop_on_existing_room_witness :
    initializeRoom "room1" 99 sampleState = sampleState :=
  initializeRoom_noop_on_existing_room sampleState "room1" 99 initialRoomState rfl

theorem handleEvent_eq_handleError (cfg : StreamConfig) (roomId : String)
    (ev : RawEvent) (h : HookState) (htype : ev.type = "error") :
    handleEvent cfg roomId ev h = handleError cfg roomId ev h := by
  simp [handleEvent, htype]

theorem handleEvent_eq_handleComplete (cfg : StreamConfig) (roomId : String)
    (ev : RawEvent) (h : HookState) (htype : ev.type = "negotiation_complete") :
    handleEvent cfg roomId ev h = handleComplete roomId h := by
  simp [handleEvent, htype]

theorem handleEvent_eq_handleSellerResponse (cfg : StreamConfig) (roomId : String)
    (ev : RawEvent) (h : HookState) (htype : ev.type = "seller_response") :
    handleEvent cfg roomId ev h = handleSellerResponse cfg roomId ev h := by
  simp [handleEvent, htype]

theorem handleEvent_eq_handleDecision (cfg : StreamConfig) (roomId : String)
    (ev : RawEvent) (h : HookState) (htype : ev.type = "decision") :
    handleEvent cfg roomId ev h = handleDecision roomId ev h := by
  simp [handleEvent, htype]

theorem handleEvent_eq_handleMessage_buyer (cfg : StreamConfig) (roomId : String)
    (ev : RawEvent) (h : HookState) (htype : ev.type = "buyer_message") :
    handleEvent cfg roomId ev h = handleMessage roomId ev h := by
  simp [handleEvent, htype]

/-- C1 (failing-input evaluation): starting from a live room with no
pending timer, an `error` event schedules a reconnect timer; a
`negotiation_complete` event handled next closes the connection
(`cleanup = false`) but leaves that reconnect timer pending, and when the
timer later fires it opens a new stream for the finished room — the
cancellation the claim requires does not happen. -/
theorem negotiation_complete_leaves_timer_pending :
    (handleEvent sampleConfig "room1" errorEvent sampleHook).reconnectTimeout = some 1000 ∧
    (handleEvent sampleConfig "room1" completeEvent
        (handleEvent sampleConfig "room1" errorEvent sampleHook)).cleanup = false ∧
    (handleEvent sampleConfig "room1" completeEvent
        (handleEvent sampleConfig "room1" errorEvent sampleHook)).reconnectTimeout = some 1000 ∧
    (fireReconnectTimer (handleEvent sampleConfig "room1" completeEvent
        (handleEvent sampleConfig "room1" errorEvent sampleHook))).streamsOpened =
      (handleEvent sampleConfig "room1" completeEvent
          (handleEvent sampleConfig "room1" errorEvent sampleHook)).streamsOpened + 1 :=
  ⟨rfl, rfl, rfl, rfl⟩

theorem roomIsStreaming_setStreaming (roomId : String) (b : Bool) (s : NegotiationState) :
    roomIsStreaming (setStreaming roomId b s) roomId =
      (roomIsStreaming s roomId).map (fun _ => b) := by
  unfold roomIsStreaming setStreaming
  rw [roomOf_withRoom_self]
  cases roomOf s roomId <;> rfl

/-- C4: an `error` event handled with attempt count below the maximum
schedules a reconnect timer with delay
`min(base_delay * 2 ^ attempts, 30000)`; once the attempt count has
reached the maximum, it stops the room's streaming status and schedules
no further reconnect timer (and opens no stream). -/
theorem error_backoff_schedule (cfg : StreamConfig) (roomId : String) (ev : RawEvent)
    (h : HookState) (htype : ev.type = "error") :
    (h.reconnectAttempts < cfg.maxAttempts →
      (handleEvent cfg roomId ev h).reconnectTimeout =
        some (min (cfg.baseDelay * 2 ^ h.reconnectAttempts) 30000)) ∧
    (cfg.maxAttempts ≤ h.reconnectAttempts →
      roomIsStreaming (handleEvent cfg roomId ev h).store roomId =
        (roomIsStreaming h.store roomId).map (fun _ => false) ∧
      (handleEvent cfg roomId ev h).reconnectTimeout = h.reconnectTimeout ∧
      (handleEvent cfg roomId ev h).streamsOpened = h.streamsOpened) := by
  rw [handleEvent_eq_handleError cfg roomId ev h htype]
  constructor
  · intro hlt
    simp [handleError, hlt]
  · intro hge
    have hnlt : ¬ h.reconnectAttempts < cfg.maxAttempts := Nat.not_lt.mpr hge
    refine ⟨?_, ?_, ?_⟩
    · have hstore : (handleError cfg roomId ev h).store = setStreaming roomId false h.store := by
        simp [handleError, hnlt]
      rw [hstore]
      exact roomIsStreaming_setStreaming roomId false h.store
    · simp [handleError, hnlt]
    · simp [handleError, hnlt]

/-- Witness for C4 at a concrete configuration: fifth and first attempts. -/
theorem error_backoff_schedule_witness :
    (handleEvent sampleConfig "room1" errorEvent
        { sampleHook with reconnectAttempts := 4 }).reconnectTimeout =
      some (min (sampleConfig.baseDelay * 2 ^ 4) 30000) ∧
    (handleEvent sampleConfig "room1" errorEvent
        { sampleHook with reconnectAttempts := 5 }).reconnectTimeout =
      { sampleHook with reconnectAttempts := 5 }.reconnectTimeout :=
  ⟨(error_backoff_schedule sampleConfig "room1" errorEvent
      { sampleHook with reconnectAttempts := 4 } rfl).1 (by decide),
   ((error_backoff_schedule sampleConfig "room1" errorEvent
      { sampleHook with reconnectAttempts := 5 } rfl).2 (by decide)).2.1⟩

theorem roomProj_withRoom {β : Type} (proj : NegotiationRoomState → β)
    (roomId other : String) (f : NegotiationRoomState → NegotiationRoomState)
    (s : NegotiationState) (hf : ∀ r, proj (f r) = proj r) :
    (roomOf (withRoom roomId f s) other).map proj = (roomOf s other).map proj := by
  by_cases ho : other = roomId
  · subst ho
    rw [roomOf_withRoom_self, Option.map_map]
    cases roomOf s other with
    | none => rfl
    | some r => simp [hf]
  · rw [roomOf_withRoom_ne _ _ _ _ ho]

theorem roomMessages_addMessage (roomId : String) (m : Message) (s : NegotiationState) :
    roomMessages (addMessage roomId m s) roomId =
      (roomMessages s roomId).map (fun l => l ++ [m]) := by
  unfold roomMessages addMessage
  rw [roomOf_withRoom_self]
  cases roomOf s roomId <;> rfl

theorem pushToast_store (h : HookState) (t : Toast) : (pushToast h t).store = h.store := rfl

theorem roomMessages_recordSellerResponse (roomId : String) (round : Int)
    (resp : RoundSellerResponse) (s : NegotiationState) (other : String) :
    roomMessages (recordSellerResponse roomId round resp s) other = roomMessages s other := by
  unfold roomMessages recordSellerResponse
  exact roomProj_withRoom _ roomId other _ s (fun r => rfl)

theorem sellerRoundStage_roomMessages (cfg : StreamConfig) (roomId : String)
    (ev : RawEvent) (h : HookState) (other : String) :
    roomMessages (sellerRoundStage cfg roomId ev h).store other =
      roomMessages h.store other := by
  unfold sellerRoundStage
  split
  · dsimp only
    split
    · rw [pushToast_store]
      exact roomMessages_recordSellerResponse roomId _ _ h.store other
    · exact roomMessages_recordSellerResponse roomId _ _ h.store other
  · rfl

/-- C2 counterexample: a `seller_response` whose stripped content is empty
and which carries no offer payload still appends a Message (with empty
body) — the claim says no Message at all is appended. -/
theorem seller_empty_message_still_appended :
    (roomMessages (handleEvent sampleConfig "room1" sellerEmptyEvent sampleHook).store
        "room1").map (fun l => l.map (fun m => m.message)) = some [""] := by
  decide

/-- C2 amended: a `buyer_message` event whose stripped content is blank
appends a Message with the fixed non-empty fallback body; a
`seller_response` event whose stripped content is empty and which carries
no offer payload also appends a Message, whose body is the empty string
(it is not dropped). -/
theorem message_normalization_amended (cfg : StreamConfig) (roomId : String)
    (ev : RawEvent) (h : HookState) (room : NegotiationRoomState)
    (hroom : roomOf h.store roomId = some room) :
    (ev.type = "buyer_message" →
      jsTrim (stripThinking (jsOrString ev.content (jsOrString ev.message ""))) = "" →
      ∃ m : Message,
        roomMessages (handleEvent cfg roomId ev h).store roomId =
            some (room.messages ++ [m]) ∧
        m.message = buyerFallbackMessage) ∧
    (ev.type = "seller_response" →
      stripThinking (jsOrString ev.content (jsOrString ev.message "")) = "" →
      ev.offer = none →
      ∃ m : Message,
        roomMessages (handleEvent cfg roomId ev h).store roomId =
            some (room.messages ++ [m]) ∧
        m.message = "") := by
  have hmsgs : roomMessages h.store roomId = some room.messages := by
    unfold roomMessages
    rw [hroom]
    rfl
  constructor
  · intro htype hstrip
    rw [handleEvent_eq_handleMessage_buyer cfg roomId ev h htype]
    refine ⟨{ turn := jsOrOptInt ev.turn_number ev.round, timestamp := ev.timestamp,
              sender_type := jsOrString ev.sender_type "buyer", sender_id := ev.sender_id,
              sender_name := ev.sender_name, message := buyerFallbackMessage,
              mentioned_agents := ev.mentioned_sellers.getD [] }, ?_, rfl⟩
    have hfb : (buyerFallbackMessage == "" || jsTrim buyerFallbackMessage == "") = false := by
      decide
    simp only [handleMessage, htype, hstrip]
    simp only [beq_self_eq_true, Bool.or_true, Bool.true_or, Bool.true_and,
      Bool.and_true, if_true, hfb, if_false, Bool.false_eq_true, ite_false, ite_true]
    rw [roomMessages_addMessage, hmsgs]
    rfl
  · intro htype hstrip hoffer
    rw [handleEvent_eq_handleSellerResponse cfg roomId ev h htype]
    have hso : sellerOfferDataOf ev = none := by
      unfold sellerOfferDataOf
      rw [hoffer]
      rfl
    refine ⟨sellerMessageOf ev, ?_, ?_⟩
    · simp only [handleSellerResponse, hso]
      rw [sellerRoundStage_roomMessages]
      rw [roomMessages_addMessage, hmsgs]
      rfl
    · simp [sellerMessageOf, hstrip, hso]

theorem roomOffers_updateOffer (roomId sid name : String) (o : Offer)
    (s : NegotiationState) :
    roomOffers (updateOffer roomId sid name o s) roomId =
      (roomOffers s roomId).map
        (fun offers => upsertAssoc offers sid { toOffer := o, seller_name := name }) := by
  unfold roomOffers updateOffer
  rw [roomOf_withRoom_self]
  cases roomOf s roomId <;> rfl

/-- C3 counterexample: with room1's decision already set, handling a plain
`buyer_message` event still appends a (non-system) Message to that room —
the claimed freeze of `messages` after a decision does not exist. -/
theorem decision_does_not_freeze_room_counterexample :
    roomDecision decidedState "room1" = some (some (decisionOf decisionEvent)) ∧
    (roomMessages (handleEvent sampleConfig "room1" buyerEmptyEvent decidedHook).store
        "room1").map (fun l => l.map (fun m => m.sender_type)) = some ["buyer"] := by
  constructor
  · rfl
  · decide

/-- C3 amended: setting a decision imposes no terminal guard in the store:
for a room whose decision is set, `addMessage` still appends any message
and `updateOffer` still updates the offer map. -/
theorem decision_does_not_freeze_room (s : NegotiationState) (roomId : String)
    (room : NegotiationRoomState) (hroom : roomOf s roomId = some room)
    (hdec : room.decision.isSome) :
    (∀ m, roomMessages (addMessage roomId m s) roomId = some (room.messages ++ [m])) ∧
    (∀ sid name o, roomOffers (updateOffer roomId sid name o s) roomId =
        some (upsertAssoc room.offers sid { toOffer := o, seller_name := name })) := by
  constructor
  · intro m
    rw [roomMessages_addMessage]
    unfold roomMessages
    rw [hroom]
    rfl
  · intro sid name o
    rw [roomOffers_updateOffer]
    unfold roomOffers
    rw [hroom]
    rfl

/-- Witness for the amended C3 on the decided room. -/
theorem decision_does_not_freeze_room_witness :
    roomMessages (addMessage "room1" sampleMessage decidedState) "room1" =
      some ({ initialRoomState with
              decision := some (decisionOf decisionEvent) }.messages ++ [sampleMessage]) :=
  (decision_does_not_freeze_room decidedState "room1"
      { initialRoomState with decision := some (decisionOf decisionEvent) } rfl rfl).1
    sampleMessage

theorem bestFold_spec (xs : List OfferEntry) (b : OfferEntry) :
    ∃ c, xs.foldl bestOfferStep (some b) = some c ∧
      (∀ o ∈ b :: xs, c.price ≤ o.price) ∧
      (b :: xs).find? (fun o => o.price ≤ c.price) = some c := by
  induction xs generalizing b with
  | nil =>
    refine ⟨b, rfl, ?_, ?_⟩
    · intro o ho
      simp only [List.mem_singleton] at ho
      simp [ho]
    · simp [List.find?]
  | cons x xs ih =>
    by_cases hx : x.price < b.price
    · obtain ⟨c, hc, hmin, hfind⟩ := ih x
      have hcx : c.price ≤ x.price := hmin x (List.mem_cons_self x xs)
      refine ⟨c, ?_, ?_, ?_⟩
      · simpa [bestOfferStep, hx] using hc
      · intro o ho
        rcases List.mem_cons.mp ho with hob | ho2
        · subst hob
          exact le_of_lt (lt_of_le_of_lt hcx hx)
        · exact hmin o ho2
      · have hnb : ¬ b.price ≤ c.price := not_le.mpr (lt_of_le_of_lt hcx hx)
        have hdb : decide (b.price ≤ c.price) = false := decide_eq_false hnb
        simp only [List.find?, hdb]
        exact hfind
    · obtain ⟨c, hc, hmin, hfind⟩ := ih b
      have hbx : b.price ≤ x.price := not_lt.mp hx
      have hcb : c.price ≤ b.price := hmin b (List.mem_cons_self b xs)
      refine ⟨c, ?_, ?_, ?_⟩
      · simpa [bestOfferStep, hx] using hc
      · intro o ho
        rcases List.mem_cons.mp ho with hob | ho2
        · subst hob
          exact hcb
        · rcases List.mem_cons.mp ho2 with hox | ho3
          · subst hox
            exact le_trans hcb hbx
          · exact hmin o (List.mem_cons.mpr (Or.inr ho3))
      · by_cases hpb : b.price ≤ c.price
        · have hdb : decide (b.price ≤ c.price) = true := decide_eq_true hpb
          have hfb : (b :: xs).find? (fun o => o.price ≤ c.price) = some b := by
            simp only [List.find?, hdb]
          have hbc : b = c := by
            rw [hfb] at hfind
            exact Option.some.inj hfind
          subst hbc
          simp only [List.find?, hdb]
        · have hxc : ¬ x.price ≤ c.price := by
            intro hle
            exact hpb (le_trans hbx hle)
          have hdb : decide (b.price ≤ c.price) = false := decide_eq_false hpb
          have hdx : decide (x.price ≤ c.price) = false := decide_eq_false hxc
          have hrest : xs.find? (fun o => o.price ≤ c.price) = some c := by
            have hthis := hfind
            simp only [List.find?, hdb] at hthis
            exact hthis
          simp only [List.find?, hdb, hdx]
          exact hrest

theorem findBestOffer_cons (x : OfferEntry) (xs : List OfferEntry) :
    findBestOffer (x :: xs) = xs.foldl bestOfferStep (some x) := rfl

/-- C6: for every non-empty offer list the resolved best offer is an entry
of minimal price, and it is the first entry whose price is at most that
minimum (ties are won by the earliest-inserted seller); in particular for
offers A:100, B:90, C:90 in insertion order A, B, C the best offer is B. -/
theorem findBestOffer_lowest_earliest :
    (∀ (l : List OfferEntry), l ≠ [] →
      ∃ b, findBestOffer l = some b ∧
        (∀ o ∈ l, b.price ≤ o.price) ∧
        l.find? (fun o => o.price ≤ b.price) = some b) ∧
    findBestOffer [offerEntryA, offerEntryB, offerEntryC] = some offerEntryB := by
  constructor
  · intro l hl
    match l with
    | x :: xs =>
      obtain ⟨c, hc, hmin, hfind⟩ := bestFold_spec xs x
      exact ⟨c, by rw [findBestOffer_cons]; exact hc, hmin, hfind⟩
  · rfl

/-- Witness for C6 at the three-offer example. -/
theorem findBestOffer_lowest_earliest_witness :
    ∃ b, findBestOffer [offerEntryA, offerEntryB, offerEntryC] = some b ∧
      (∀ o ∈ [offerEntryA, offerEntryB, offerEntryC], b.price ≤ o.price) ∧
      [offerEntryA, offerEntryB, offerEntryC].find? (fun o => o.price ≤ b.price) = some b :=
  findBestOffer_lowest_earliest.1 [offerEntryA, offerEntryB, offerEntryC] (by simp)

/-- Witness for the amended C2 at concrete empty-content events. -/
theorem message_normalization_amended_witness :
    (∃ m : Message,
        roomMessages (handleEvent sampleConfig "room1" buyerEmptyEvent sampleHook).store
            "room1" = some (initialRoomState.messages ++ [m]) ∧
        m.message = buyerFallbackMessage) ∧
    (∃ m : Message,
        roomMessages (handleEvent sampleConfig "room1" sellerEmptyEvent sampleHook).store
            "room1" = some (initialRoomState.messages ++ [m]) ∧
        m.message = "") :=
  ⟨(message_normalization_amended sampleConfig "room1" buyerEmptyEvent sampleHook
      initialRoomState rfl).1 rfl rfl,
   (message_normalization_amended sampleConfig "room1" sellerEmptyEvent sampleHook
      initialRoomState rfl).2 rfl rfl rfl⟩

theorem insertByRound_map (f : RoundTimelineEntry → RoundTimelineEntry)
    (hf : ∀ e, (f e).round = e.round) (e : RoundTimelineEntry) :
    ∀ l : List RoundTimelineEntry,
      insertByRound (f e) (l.map f) = (insertByRound e l).map f := by
  intro l
  induction l with
  | nil => rfl
  | cons x xs ih =>
    simp only [List.map_cons, insertByRound, hf]
    by_cases hle : e.round ≤ x.round
    · rw [if_pos hle, if_pos hle]
      rfl
    · rw [if_neg hle, if_neg hle, List.map_cons, ih]

theorem sortByRound_map (f : RoundTimelineEntry → RoundTimelineEntry)
    (hf : ∀ e, (f e).round = e.round) :
    ∀ l : List RoundTimelineEntry, sortByRound (l.map f) = (sortByRound l).map f := by
  intro l
  induction l with
  | nil => rfl
  | cons x xs ih =>
    simp only [List.map_cons, sortByRound, ih, insertByRound_map f hf]

theorem any_insertByRound (p : RoundTimelineEntry → Bool) (e : RoundTimelineEntry) :
    ∀ l : List RoundTimelineEntry, (insertByRound e l).any p = (p e || l.any p) := by
  intro l
  induction l with
  | nil => simp [insertByRound]
  | cons x xs ih =>
    simp only [insertByRound]
    by_cases hle : e.round ≤ x.round
    · rw [if_pos hle]
      simp
    · rw [if_neg hle]
      simp only [List.any_cons, ih]
      rw [Bool.or_left_comm]

theorem any_sortByRound (p : RoundTimelineEntry → Bool) :
    ∀ l : List RoundTimelineEntry, (sortByRound l).any p = l.any p := by
  intro l
  induction l with
  | nil => rfl
  | cons x xs ih =>
    simp only [sortByRound, any_insertByRound, ih, List.any_cons]

theorem map_inPlace_id (r : Int) (u : RoundTimelineEntry → RoundTimelineEntry) :
    ∀ l : List RoundTimelineEntry, l.any (fun e => e.round == r) = false →
      l.map (fun e => if e.round = r then u e else e) = l := by
  intro l hl
  induction l with
  | nil => rfl
  | cons x xs ih =>
    simp only [List.any_cons, Bool.or_eq_false_iff] at hl
    have hx : ¬ x.round = r := by simpa using hl.1
    simp only [List.map_cons, if_neg hx, ih hl.2]

theorem mem_insertByRound (a e : RoundTimelineEntry) :
    ∀ l : List RoundTimelineEntry, a ∈ insertByRound e l ↔ a = e ∨ a ∈ l := by
  intro l
  induction l with
  | nil => simp [insertByRound]
  | cons x xs ih =>
    simp only [insertByRound]
    by_cases hle : e.round ≤ x.round
    · rw [if_pos hle]
      simp
    · rw [if_neg hle]
      simp only [List.mem_cons, ih]
      tauto

theorem mem_sortByRound (a : RoundTimelineEntry) :
    ∀ l : List RoundTimelineEntry, a ∈ sortByRound l ↔ a ∈ l := by
  intro l
  induction l with
  | nil => simp [sortByRound]
  | cons x xs ih =>
    simp only [sortByRound, mem_insertByRound, ih, List.mem_cons]

theorem upsertRoundEntry_comm (es : List RoundTimelineEntry) (r : Int)
    (u v : RoundTimelineEntry → RoundTimelineEntry)
    (hu : ∀ e, (u e).round = e.round) (hv : ∀ e, (v e).round = e.round)
    (huv : ∀ e, u (v e) = v (u e)) :
    upsertRoundEntry (upsertRoundEntry es r u) r v =
      upsertRoundEntry (upsertRoundEntry es r v) r u := by
  by_cases hany : es.any (fun e => e.round == r) = true
  · have hmapany : ∀ (w : RoundTimelineEntry → RoundTimelineEntry),
        (∀ e, (w e).round = e.round) →
        (es.map (fun e => if e.round = r then w e else e)).any (fun e => e.round == r) = true := by
      intro w hw
      rw [List.any_map]
      have : ((fun e => e.round == r) ∘ fun e => if e.round = r then w e else e)
          = (fun e : RoundTimelineEntry => e.round == r) := by
        funext e
        by_cases he : e.round = r
        · simp [Function.comp, he, hw]
        · simp [Function.comp, he]
      rw [this]
      exact hany
    unfold upsertRoundEntry
    rw [if_pos hany, if_pos hany, if_pos (hmapany u hu), if_pos (hmapany v hv),
      List.map_map, List.map_map]
    apply List.map_congr_left
    intro e _
    by_cases he : e.round = r
    · simp only [Function.comp, if_pos he]
      rw [if_pos (by rw [hu e]; exact he), if_pos (by rw [hv e]; exact he)]
      exact (huv e).symm
    · simp only [Function.comp, if_neg he, if_neg he]
  · have hany2 : ∀ (w : RoundTimelineEntry → RoundTimelineEntry),
        (∀ e, (w e).round = e.round) →
        (sortByRound (es ++ [w (newRoundEntry r)])).any (fun e => e.round == r) = true := by
      intro w hw
      rw [any_sortByRound, List.any_append]
      simp [hw, newRoundEntry]
    have hanyf : es.any (fun e => e.round == r) = false := by
      simpa using hany
    unfold upsertRoundEntry
    rw [if_neg hany, if_neg hany, if_pos (hany2 u hu), if_pos (hany2 v hv)]
    have hstep : ∀ (w w2 : RoundTimelineEntry → RoundTimelineEntry),
        (∀ e, (w e).round = e.round) → (∀ e, (w2 e).round = e.round) →
        (sortByRound (es ++ [w (newRoundEntry r)])).map
            (fun e => if e.round = r then w2 e else e) =
          sortByRound (es ++ [w2 (w (newRoundEntry r))]) := by
      intro w w2 hw hw2
      rw [← sortByRound_map (fun e => if e.round = r then w2 e else e)
        (by
          intro e
          by_cases he : e.round = r
          · simp [he, hw2]
          · simp [he])]
      congr 1
      rw [List.map_append, map_inPlace_id r w2 es hanyf]
      congr 2
      simp only [List.map_cons, List.map_nil]
      rw [if_pos]
      rw [hw (newRoundEntry r)]
      rfl
    rw [hstep u v hu hv, hstep v u hv hu, huv (newRoundEntry r)]

theorem recordRoundStart_recordSellerResponse_comm (roomId : String) (r : Int)
    (startedAt : String) (resp : RoundSellerResponse) (st : NegotiationState) :
    recordRoundStart roomId r startedAt (recordSellerResponse roomId r resp st) =
      recordSellerResponse roomId r resp (recordRoundStart roomId r startedAt st) := by
  unfold recordRoundStart recordSellerResponse
  rw [withRoom_withRoom, withRoom_withRoom]
  congr 1
  funext room
  exact congrArg (fun tl => { room with roundTimeline := tl })
    (upsertRoundEntry_comm room.roundTimeline r
      (fun entry => { entry with sellerResponses := entry.sellerResponses ++ [resp] })
      (fun entry => { entry with startedAt := some startedAt })
      (fun e => rfl) (fun e => rfl) (fun e => rfl))

/-- C7: recording a round start before versus after any sequence of
seller-response recordings for the same round yields the same store state
(hence the same final RoundEntry), the entry being created lazily by
whichever update touches the round first. -/
theorem round_timeline_updates_commute (st : NegotiationState) (roomId : String)
    (r : Int) (startedAt : String) (rs : List RoundSellerResponse) :
    recordRoundStart roomId r startedAt
        (rs.foldl (fun acc resp => recordSellerResponse roomId r resp acc) st) =
      rs.foldl (fun acc resp => recordSellerResponse roomId r resp acc)
        (recordRoundStart roomId r startedAt st) := by
  induction rs generalizing st with
  | nil => rfl
  | cons resp rest ih =>
    simp only [List.foldl_cons]
    rw [ih (recordSellerResponse roomId r resp st)]
    rw [recordRoundStart_recordSellerResponse_comm]

theorem find?_map_inPlace (r : Int) (u : RoundTimelineEntry → RoundTimelineEntry)
    (hu : ∀ e, (u e).round = e.round) :
    ∀ l : List RoundTimelineEntry,
      (l.map (fun e => if e.round = r then u e else e)).find? (fun e => e.round == r) =
        (l.find? (fun e => e.round == r)).map u := by
  intro l
  induction l with
  | nil => rfl
  | cons x xs ih =>
    by_cases hx : x.round = r
    · have hd3 : ((u x).round == r) = true := by
        rw [hu x]
        simpa using hx
      have hd2 : (x.round == r) = true := by simpa using hx
      simp only [List.map_cons, List.find?, if_pos hx, hd3, hd2]
      rfl
    · have hd : ((if x.round = r then u x else x).round == r) = false := by
        rw [if_neg hx]
        simpa using hx
      have hd2 : (x.round == r) = false := by simpa using hx
      simp only [List.map_cons, List.find?, hd, hd2]
      exact ih

theorem find?_of_mem_unique {α : Type} (p : α → Bool) :
    ∀ (l : List α) (e : α), e ∈ l → p e = true → (∀ x ∈ l, p x = true → x = e) →
      l.find? p = some e := by
  intro l
  induction l with
  | nil =>
    intro e he
    simp at he
  | cons x xs ih =>
    intro e he hpe huniq
    by_cases hpx : p x = true
    · have hxe : x = e := huniq x (List.mem_cons_self x xs) hpx
      simp only [List.find?, hxe, hpe]
    · have hpxf : p x = false := by simpa using hpx
      have hxe : e ∈ xs := by
        rcases List.mem_cons.mp he with hex | hexs
        · exfalso
          rw [hex] at hpe
          rw [hpe] at hpxf
          cases hpxf
        · exact hexs
      simp only [List.find?, hpxf]
      exact ih e hxe hpe (fun y hy => huniq y (List.mem_cons.mpr (Or.inr hy)))

theorem find?_upsertRoundEntry (es : List RoundTimelineEntry) (r : Int)
    (u : RoundTimelineEntry → RoundTimelineEntry) (hu : ∀ e, (u e).round = e.round) :
    (upsertRoundEntry es r u).find? (fun e => e.round == r) =
      some (u ((es.find? (fun e => e.round == r)).getD (newRoundEntry r))) := by
  by_cases hany : es.any (fun e => e.round == r) = true
  · cases hfe : es.find? (fun e => e.round == r) with
    | none =>
      exfalso
      obtain ⟨x, hx, hpx⟩ := List.any_eq_true.mp hany
      exact (List.find?_eq_none.mp hfe x hx) hpx
    | some e =>
      unfold upsertRoundEntry
      rw [if_pos hany, find?_map_inPlace r u hu, hfe]
      rfl
  · have hanyf : es.any (fun e => e.round == r) = false := by simpa using hany
    have hfnone : es.find? (fun e => e.round == r) = none := by
      rw [List.find?_eq_none]
      intro x hx hpx
      have hcontra : es.any (fun e => e.round == r) = true :=
        List.any_eq_true.mpr ⟨x, hx, hpx⟩
      rw [hcontra] at hanyf
      cases hanyf
    unfold upsertRoundEntry
    rw [if_neg hany, hfnone]
    apply find?_of_mem_unique
    · rw [mem_sortByRound]
      exact List.mem_append.mpr (Or.inr (List.mem_singleton.mpr rfl))
    · rw [hu]
      simp [newRoundEntry]
    · intro x hx hpx
      rw [mem_sortByRound] at hx
      rcases List.mem_append.mp hx with hxe | hxw
      · exfalso
        have hcontra : es.any (fun e => e.round == r) = true :=
          List.any_eq_true.mpr ⟨x, hxe, hpx⟩
        rw [hcontra] at hanyf
        cases hanyf
      · exact List.mem_singleton.mp hxw

theorem jsOrIntVal_some_zero (n : Int) : jsOrIntVal (some n) 0 = n := by
  show (if n = 0 then (0 : Int) else n) = n
  by_cases hn : n = 0
  · rw [if_pos hn, hn]
  · rw [if_neg hn]

theorem roomDecision_setRoundCardSavings (roomId other : String) (r cs : Int)
    (s : NegotiationState) :
    roomDecision (setRoundCardSavings roomId r cs s) other = roomDecision s other := by
  unfold roomDecision setRoundCardSavings
  apply roomProj_withRoom
  intro q
  rfl

theorem roomMessages_setRoundCardSavings (roomId other : String) (r cs : Int)
    (s : NegotiationState) :
    roomMessages (setRoundCardSavings roomId r cs s) other = roomMessages s other := by
  unfold roomMessages setRoundCardSavings
  apply roomProj_withRoom
  intro q
  rfl

/-- C8 counterexample: a decision event naming no seller still appends the
synthesizing system Message — the claimed "if and only if the decision
names a seller" fails in the only-if direction. -/
theorem decision_message_without_seller_counterexample :
    (decisionOf decisionNoSellerEvent).selected_seller_id = none ∧
    (roomMessages (handleEvent sampleConfig "room1" decisionNoSellerEvent
        sampleHook).store "room1").map (fun l => l.length) = some 1 :=
  ⟨rfl, by decide⟩

/-- C8 amended: handling a `decision` event sets the room's Decision from
the payload and always appends the synthesizing system Message (whether or
not the decision names a seller); when the event's `card_savings` is
numeric it is recorded on the current round's timeline entry. -/
theorem decision_event_effects (cfg : StreamConfig) (roomId : String) (ev : RawEvent)
    (h : HookState) (room : NegotiationRoomState)
    (htype : ev.type = "decision") (hroom : roomOf h.store roomId = some room) :
    roomDecision (handleEvent cfg roomId ev h).store roomId =
      some (some (decisionOf ev)) ∧
    roomMessages (handleEvent cfg roomId ev h).store roomId =
      some (room.messages ++ [decisionMessageOf ev]) ∧
    (∀ cs : Int, ev.card_savings = some cs →
      (roundEntryOf (handleEvent cfg roomId ev h).store roomId room.currentRound).map
          (fun e => e.cardSavings) = some (some cs)) := by
  rw [handleEvent_eq_handleDecision cfg roomId ev h htype]
  have hroom1 : roomOf (setDecision roomId (decisionOf ev) h.store) roomId =
      some { room with decision := some (decisionOf ev) } := by
    unfold setDecision
    rw [roomOf_withRoom_self, hroom]
    rfl
  have hroom2 : roomOf (addMessage roomId (decisionMessageOf ev)
      (setDecision roomId (decisionOf ev) h.store)) roomId =
      some { room with decision := some (decisionOf ev),
                       messages := room.messages ++ [decisionMessageOf ev] } := by
    unfold addMessage
    rw [roomOf_withRoom_self, hroom1]
    rfl
  refine ⟨?_, ?_, ?_⟩
  · simp only [handleDecision]
    cases hcs : ev.card_savings with
    | none =>
      simp only [pushToast_store]
      unfold roomDecision
      rw [hroom2]
      rfl
    | some cs =>
      simp only [pushToast_store]
      rw [roomDecision_setRoundCardSavings]
      unfold roomDecision
      rw [hroom2]
      rfl
  · simp only [handleDecision]
    cases hcs : ev.card_savings with
    | none =>
      simp only [pushToast_store]
      unfold roomMessages
      rw [hroom2]
      rfl
    | some cs =>
      simp only [pushToast_store]
      rw [roomMessages_setRoundCardSavings]
      unfold roomMessages
      rw [hroom2]
      rfl
  · intro cs hcs
    simp only [handleDecision, hcs, pushToast_store]
    have hcur : (lookupAssoc (addMessage roomId (decisionMessageOf ev)
        (setDecision roomId (decisionOf ev) h.store)).rooms roomId).map
          (fun r => r.currentRound) = some room.currentRound := by
      have hx := hroom2
      unfold roomOf at hx
      rw [hx]
      rfl
    rw [hcur, jsOrIntVal_some_zero]
    unfold roundEntryOf setRoundCardSavings
    rw [roomOf_withRoom_self, hroom2]
    show ((upsertRoundEntry (room.roundTimeline) room.currentRound
        (fun entry => { entry with cardSavings := some cs })).find?
          (fun e => e.round == room.currentRound)).map (fun e => e.cardSavings) =
      some (some cs)
    rw [find?_upsertRoundEntry room.roundTimeline room.currentRound
      (fun entry => { entry with cardSavings := some cs }) (fun e => rfl)]
    rfl

/-- Witness for the amended C8 at the concrete decision event. -/
theorem decision_event_effects_witness :
    roomDecision (handleEvent sampleConfig "room1" decisionEvent sampleHook).store
        "room1" = some (some (decisionOf decisionEvent)) ∧
    (roundEntryOf (handleEvent sampleConfig "room1" decisionEvent sampleHook).store
        "room1" initialRoomState.currentRound).map (fun e => e.cardSavings) =
      some (some 5) :=
  ⟨(decision_event_effects sampleConfig "room1" decisionEvent sampleHook
      initialRoomState rfl rfl).1,
   (decision_event_effects sampleConfig "room1" decisionEvent sampleHook
      initialRoomState rfl rfl).2.2 5 rfl⟩

theorem roomOffers_addMessage_any (roomId other : String) (m : Message)
    (s : NegotiationState) :
    roomOffers (addMessage roomId m s) other = roomOffers s other := by
  unfold roomOffers addMessage
  apply roomProj_withRoom
  intro q
  rfl

theorem roomOffers_recordSellerResponse (roomId other : String) (r : Int)
    (resp : RoundSellerResponse) (s : NegotiationState) :
    roomOffers (recordSellerResponse roomId r resp s) other = roomOffers s other := by
  unfold roomOffers recordSellerResponse
  apply roomProj_withRoom
  intro q
  rfl

theorem roomOffers_setRoundBestOffer (roomId other : String) (r : Int)
    (bo : RoundBestOffer) (s : NegotiationState) :
    roomOffers (setRoundBestOffer roomId r bo s) other = roomOffers s other := by
  unfold roomOffers setRoundBestOffer
  apply roomProj_withRoom
  intro q
  rfl

theorem upsertAssoc_ne_nil {κ α : Type} [DecidableEq κ]
    (m : List (κ × α)) (k : κ) (v : α) : upsertAssoc m k v ≠ [] := by
  cases m with
  | nil => simp [upsertAssoc]
  | cons p rest =>
    obtain ⟨k1, w⟩ := p
    by_cases hk : k1 = k
    · simp [upsertAssoc, hk]
    · simp [upsertAssoc, hk]

theorem findBestOffer_of_ne_nil (l : List OfferEntry) (hl : l ≠ []) :
    ∃ b, findBestOffer l = some b := by
  match l with
  | x :: xs =>
    obtain ⟨c, hc, _, _⟩ := bestFold_spec xs x
    exact ⟨c, by rw [findBestOffer_cons]; exact hc⟩

theorem offerEntries_ne_nil (m : List (String × NamedOffer)) (hm : m ≠ []) :
    offerEntries m ≠ [] := by
  cases m with
  | nil => exact absurd rfl hm
  | cons p rest => simp [offerEntries]

theorem bestOfferToastCount_pushToast (h : HookState) (t : Toast) :
    bestOfferToastCount (pushToast h t) =
      bestOfferToastCount h + (if (t.title == "Best offer updated") = true then 1 else 0) := by
  unfold bestOfferToastCount pushToast
  rw [List.countP_append]
  simp [List.countP_cons]

theorem round_complete_title_ne (x y : String) :
    ((("Round " ++ x) ++ y) == "Best offer updated") = false := by
  apply beq_eq_false_iff_ne.mpr
  intro heq
  have hd := congrArg String.data heq
  rw [String.data_append, String.data_append] at hd
  simp at hd

theorem upsertAssoc_map_collapse (sid : String) (v : NamedOffer)
    (o : Option (List (String × NamedOffer))) :
    upsertAssoc ((o.map (fun m => upsertAssoc m sid v)).getD []) sid v =
      upsertAssoc (o.getD []) sid v := by
  cases o with
  | none => rfl
  | some m =>
    show upsertAssoc (upsertAssoc m sid v) sid v = upsertAssoc m sid v
    exact upsertAssoc_upsertAssoc_self m sid v v

theorem sellerRoundStage_roomOffers (cfg : StreamConfig) (roomId : String)
    (ev : RawEvent) (h : HookState) (other : String) :
    roomOffers (sellerRoundStage cfg roomId ev h).store other =
      roomOffers h.store other := by
  unfold sellerRoundStage
  split
  · dsimp only
    split
    · rw [pushToast_store]
      exact roomOffers_recordSellerResponse roomId other _ _ h.store
    · exact roomOffers_recordSellerResponse roomId other _ _ h.store
  · rfl

theorem sellerRoundStage_bestOffer (cfg : StreamConfig) (roomId : String)
    (ev : RawEvent) (h : HookState) :
    (sellerRoundStage cfg roomId ev h).bestOffer = h.bestOffer := by
  unfold sellerRoundStage
  split
  · dsimp only
    split
    · rfl
    · rfl
  · rfl

theorem sellerRoundStage_toastCount (cfg : StreamConfig) (roomId : String)
    (ev : RawEvent) (h : HookState) :
    bestOfferToastCount (sellerRoundStage cfg roomId ev h) = bestOfferToastCount h := by
  unfold sellerRoundStage
  split
  · dsimp only
    split
    · rw [bestOfferToastCount_pushToast, round_complete_title_ne]
      rfl
    · rfl
  · rfl


theorem handleSellerResponse_no_offer (cfg : StreamConfig) (roomId : String)
    (ev : RawEvent) (h : HookState) (hoffer : ev.offer = none) :
    roomOffers (handleSellerResponse cfg roomId ev h).store roomId =
      roomOffers h.store roomId ∧
    (handleSellerResponse cfg roomId ev h).bestOffer = h.bestOffer ∧
    bestOfferToastCount (handleSellerResponse cfg roomId ev h) = bestOfferToastCount h := by
  have hso : sellerOfferDataOf ev = none := by
    unfold sellerOfferDataOf
    rw [hoffer]
    rfl
  refine ⟨?_, ?_, ?_⟩
  · simp only [handleSellerResponse, hso]
    rw [sellerRoundStage_roomOffers]
    exact roomOffers_addMessage_any roomId roomId _ h.store
  · simp only [handleSellerResponse, hso]
    rw [sellerRoundStage_bestOffer]
  · simp only [handleSellerResponse, hso]
    rw [sellerRoundStage_toastCount]
    rfl

theorem bestOfferChanged_false_iff (prev : Option (String × Int)) (b : OfferEntry) :
    bestOfferChanged prev b = false ↔ prev = some (b.sellerId, b.price) := by
  cases prev with
  | none => simp [bestOfferChanged]
  | some p =>
    obtain ⟨p1, p2⟩ := p
    simp [bestOfferChanged, Prod.ext_iff]

theorem handleSellerResponse_with_offer (cfg : StreamConfig) (roomId : String)
    (ev : RawEvent) (h : HookState) (op : OfferPayload) (hoffer : ev.offer = some op) :
    roomOffers (handleSellerResponse cfg roomId ev h).store roomId =
      (roomOffers h.store roomId).map
        (fun m => upsertAssoc m (jsString ev.seller_id) (eventNamedOffer ev op)) ∧
    (∀ b, resolvedBestAfter ev op roomId h = some b →
      (handleSellerResponse cfg roomId ev h).bestOffer = some (b.sellerId, b.price) ∧
      bestOfferToastCount (handleSellerResponse cfg roomId ev h) =
        bestOfferToastCount h +
          (if bestOfferChanged h.bestOffer b = true then 1 else 0)) := by
  have hso : sellerOfferDataOf ev =
      some { price := op.price, quantity := op.quantity, timestamp := ev.timestamp } := by
    unfold sellerOfferDataOf
    rw [hoffer]
    rfl
  have hupo2 : roomOffers (updateOffer roomId (jsString ev.seller_id)
      (jsString ev.sender_name)
      { price := op.price, quantity := op.quantity, timestamp := ev.timestamp }
      (addMessage roomId (sellerMessageOf ev) h.store)) roomId =
      (roomOffers h.store roomId).map
        (fun m => upsertAssoc m (jsString ev.seller_id) (eventNamedOffer ev op)) := by
    have h1 := roomOffers_updateOffer roomId (jsString ev.seller_id) (jsString ev.sender_name)
      { price := op.price, quantity := op.quantity, timestamp := ev.timestamp }
      (addMessage roomId (sellerMessageOf ev) h.store)
    rw [roomOffers_addMessage_any roomId roomId (sellerMessageOf ev) h.store] at h1
    exact h1
  have hupo : (lookupAssoc (updateOffer roomId (jsString ev.seller_id)
      (jsString ev.sender_name)
      { price := op.price, quantity := op.quantity, timestamp := ev.timestamp }
      (addMessage roomId (sellerMessageOf ev) h.store)).rooms roomId).map
        (fun r => r.offers) =
      (roomOffers h.store roomId).map
        (fun m => upsertAssoc m (jsString ev.seller_id) (eventNamedOffer ev op)) := hupo2
  have hv : NamedOffer.mk { price := op.price, quantity := op.quantity, timestamp := ev.timestamp } (jsString ev.sender_name) = eventNamedOffer ev op := rfl
  constructor
  · simp only [handleSellerResponse, hso]
    rw [sellerRoundStage_roomOffers, hupo, hv, upsertAssoc_map_collapse]
    split
    · exact hupo2
    · split
      · rw [pushToast_store]
        rw [roomOffers_setRoundBestOffer]
        exact hupo2
      · exact hupo2
  · intro b hb
    have hb' : findBestOffer (offerEntries (upsertAssoc
        ((roomOffers h.store roomId).getD []) (jsString ev.seller_id)
        (eventNamedOffer ev op))) = some b := hb
    constructor
    · simp only [handleSellerResponse, hso]
      rw [sellerRoundStage_bestOffer, hupo, hv, upsertAssoc_map_collapse]
      simp only [hb']
      split
      · rfl
      · rename_i hc
        rw [Bool.not_eq_true] at hc
        exact (bestOfferChanged_false_iff h.bestOffer b).mp hc
    · simp only [handleSellerResponse, hso]
      rw [sellerRoundStage_toastCount, hupo, hv, upsertAssoc_map_collapse]
      simp only [hb']
      split
      · rw [bestOfferToastCount_pushToast]
        rfl
      · rfl


/-- C5: handling the same `seller_response` event a second time leaves the
room's offer map (hence `offers[seller_id]`) equal to its value after the
first application, leaves the tracked best-offer pair unchanged, and emits
no second best-offer change notification. -/
theorem seller_response_replay_idempotent (cfg : StreamConfig) (roomId : String)
    (ev : RawEvent) (h : HookState) (htype : ev.type = "seller_response") :
    roomOffers (handleEvent cfg roomId ev (handleEvent cfg roomId ev h)).store roomId =
      roomOffers (handleEvent cfg roomId ev h).store roomId ∧
    (handleEvent cfg roomId ev (handleEvent cfg roomId ev h)).bestOffer =
      (handleEvent cfg roomId ev h).bestOffer ∧
    bestOfferToastCount (handleEvent cfg roomId ev (handleEvent cfg roomId ev h)) =
      bestOfferToastCount (handleEvent cfg roomId ev h) := by
  rw [handleEvent_eq_handleSellerResponse cfg roomId ev h htype]
  rw [handleEvent_eq_handleSellerResponse cfg roomId ev
    (handleSellerResponse cfg roomId ev h) htype]
  cases hoffer : ev.offer with
  | none =>
    have L2 := handleSellerResponse_no_offer cfg roomId ev
      (handleSellerResponse cfg roomId ev h) hoffer
    exact ⟨L2.1, L2.2.1, L2.2.2⟩
  | some op =>
    have A1 := handleSellerResponse_with_offer cfg roomId ev h op hoffer
    have A2 := handleSellerResponse_with_offer cfg roomId ev
      (handleSellerResponse cfg roomId ev h) op hoffer
    have hnn : upsertAssoc ((roomOffers h.store roomId).getD [])
        (jsString ev.seller_id) (eventNamedOffer ev op) ≠ [] :=
      upsertAssoc_ne_nil _ _ _
    obtain ⟨b, hbst⟩ := findBestOffer_of_ne_nil _ (offerEntries_ne_nil _ hnn)
    have hb : resolvedBestAfter ev op roomId h = some b := hbst
    have hres1 : resolvedBestAfter ev op roomId (handleSellerResponse cfg roomId ev h) =
        resolvedBestAfter ev op roomId h := by
      unfold resolvedBestAfter
      rw [A1.1, upsertAssoc_map_collapse]
    have hb1 : resolvedBestAfter ev op roomId (handleSellerResponse cfg roomId ev h) =
        some b := hres1.trans hb
    obtain ⟨href1, hcount1⟩ := A1.2 b hb
    obtain ⟨href2, hcount2⟩ := A2.2 b hb1
    refine ⟨?_, ?_, ?_⟩
    · rw [A2.1, A1.1]
      cases hro : roomOffers h.store roomId with
      | none => rfl
      | some m =>
        show some (upsertAssoc (upsertAssoc m (jsString ev.seller_id)
            (eventNamedOffer ev op)) (jsString ev.seller_id) (eventNamedOffer ev op)) =
          some (upsertAssoc m (jsString ev.seller_id) (eventNamedOffer ev op))
        rw [upsertAssoc_upsertAssoc_self]
    · rw [href2, href1]
    · rw [hcount2, href1]
      have hch : bestOfferChanged (some (b.sellerId, b.price)) b = false := by
        simp [bestOfferChanged]
      rw [hch]
      simp

/-- Witness for C5: replaying the concrete seller offer event. -/
theorem seller_response_replay_idempotent_witness :
    roomOffers (handleEvent sampleConfig "room1" sellerOfferEvent
        (handleEvent sampleConfig "room1" sellerOfferEvent sampleHook)).store "room1" =
      roomOffers (handleEvent sampleConfig "room1" sellerOfferEvent sampleHook).store
        "room1" ∧
    (handleEvent sampleConfig "room1" sellerOfferEvent
        (handleEvent sampleConfig "room1" sellerOfferEvent sampleHook)).bestOffer =
      (handleEvent sampleConfig "room1" sellerOfferEvent sampleHook).bestOffer ∧
    bestOfferToastCount (handleEvent sampleConfig "room1" sellerOfferEvent
        (handleEvent sampleConfig "room1" sellerOfferEvent sampleHook)) =
      bestOfferToastCount (handleEvent sampleConfig "room1" sellerOfferEvent sampleHook) :=
  seller_response_replay_idempotent sampleConfig "room1" sellerOfferEvent sampleHook rfl

end NegotiationCore
